import Mathlib

/-!
Verification of the snapshot engine of the `browser-cli` repository
(`src/snapshot.rs`), a shallow embedding in Lean 4.

Strings are modelled as lists of characters (`Str`).  Rust byte indices
computed by `str::find` always fall on character boundaries (a valid UTF-8
needle can only match at a boundary), so character-level positions are a
faithful model of the byte positions used by `glob_match`.
JSON values (`serde_json::Value`) are modelled by the inductive `Json`;
a number carries its rendered decimal text, which is all the formatter
ever uses of it.
-/

abbrev Str := List Char

/-- Character-list form of a string literal. -/
def lit (s : String) : Str := s.data

/-- The `{` character, used by the fiber prop formatter. -/
def lbrace : Char := Char.ofNat 123

/-- The `}` character, used by the fiber prop formatter. -/
def rbrace : Char := Char.ofNat 125

/-- `char::to_ascii_lowercase`: maps `A`..`Z` (65..90) to `a`..`z`. -/
def asciiLower (c : Char) : Char :=
  if 65 ≤ c.toNat ∧ c.toNat ≤ 90 then Char.ofNat (c.toNat + 32) else c

/-- `str::to_ascii_lowercase`. -/
def str_lower (s : Str) : Str := s.map asciiLower

/-- `str::starts_with` on character lists. -/
def str_starts_with : Str → Str → Bool
  | _, [] => true
  | [], _ :: _ => false
  | a :: s, b :: p => a == b && str_starts_with s p

/-- `str::find(&str)`: position of the first occurrence of `needle`. -/
def find_sub (hay needle : Str) : Option Nat :=
  match hay with
  | [] => if needle.isEmpty then some 0 else none
  | _ :: rest =>
    if str_starts_with hay needle then some 0
    else (find_sub rest needle).map (· + 1)

/-- `str::contains(&str)`: substring containment. -/
def contains_sub (hay needle : Str) : Bool := (find_sub hay needle).isSome

/-- `str::split(char)`, as used by `glob_match` on `'*'`. -/
def split_on_char (c : Char) : Str → List Str
  | [] => [[]]
  | x :: rest =>
    if x == c then [] :: split_on_char c rest
    else
      match split_on_char c rest with
      | [] => [[x]]
      | s :: ss => (x :: s) :: ss

/-- `Vec<String>::join("\n")`. -/
def join_lines : List Str → Str
  | [] => []
  | [l] => l
  | l :: rest => l ++ '\n' :: join_lines rest

/-- Suffix test used to state the glob-soundness claims. -/
def str_ends_with (s p : Str) : Bool :=
  str_starts_with (s.drop (s.length - p.length)) p

/-- `serde_json::Value`.  A `jnum` carries the decimal text the `Display`
instance would print; the snapshot code only ever interpolates numbers. -/
inductive Json where
  | jnull
  | jbool (b : Bool)
  | jnum (s : Str)
  | jstr (s : Str)
  | jarr (items : List Json)
  | jobj (fields : List (Str × Json))

/-- `SnapshotOptions` (src/snapshot.rs lines 6-13). -/
structure SnapshotOptions where
  interactive : Bool
  compact : Bool
  react : Bool
  max_depth : Option Nat
  filter : Option Str

/-- `INTERACTIVE_ROLES` (src/snapshot.rs lines 63-81). -/
def INTERACTIVE_ROLES : List Str :=
  [lit "button", lit "link", lit "textbox", lit "checkbox", lit "radio",
   lit "combobox", lit "listbox", lit "menuitem", lit "menuitemcheckbox",
   lit "menuitemradio", lit "option", lit "searchbox", lit "slider",
   lit "spinbutton", lit "switch", lit "tab", lit "treeitem"]

/-- `INTERACTIVE_TAGS` (src/snapshot.rs lines 83-85). -/
def INTERACTIVE_TAGS : List Str :=
  [lit "a", lit "button", lit "input", lit "select", lit "textarea",
   lit "details", lit "summary"]

/-- `TreeNode` (src/snapshot.rs lines 16-33): unified fiber/host node. -/
inductive TreeNode where
  | mk (name : Str) (is_component : Bool) (props : List (Str × Json))
       (ref_id : Option Str) (role : Option Str) (aria_name : Option Str)
       (tag : Option Str) (html_attrs : Option (List (Str × Json)))
       (children : List TreeNode)

def TreeNode.name : TreeNode → Str
  | .mk n _ _ _ _ _ _ _ _ => n

def TreeNode.is_component : TreeNode → Bool
  | .mk _ c _ _ _ _ _ _ _ => c

def TreeNode.props : TreeNode → List (Str × Json)
  | .mk _ _ p _ _ _ _ _ _ => p

def TreeNode.tag : TreeNode → Option Str
  | .mk _ _ _ _ _ _ t _ _ => t

def TreeNode.children : TreeNode → List TreeNode
  | .mk _ _ _ _ _ _ _ _ ch => ch

/-- `"  ".repeat(depth)`. -/
def indent_of (depth : Nat) : Str := List.replicate (2 * depth) ' '

mutual

/-- `has_interactive_descendant` (src/snapshot.rs lines 375-384). -/
def has_interactive_descendant : TreeNode → Bool
  | .mk _ is_component _ _ _ _ tag _ children =>
    (if !is_component then
       match tag with
       | some t => INTERACTIVE_TAGS.contains t
       | none => false
     else false)
    || has_interactive_descendant_list children

/-- The `node.children.iter().any(...)` loop of `has_interactive_descendant`. -/
def has_interactive_descendant_list : List TreeNode → Bool
  | [] => false
  | c :: rest => has_interactive_descendant c || has_interactive_descendant_list rest

end

/-- One ` key=...` fragment of the prop loop in `format_fiber_node`
(src/snapshot.rs lines 296-304). -/
def prop_fragment (key : Str) (value : Json) : Str :=
  match value with
  | .jstr s => ' ' :: key ++ '=' :: '"' :: s ++ ['"']
  | .jnum n => ' ' :: key ++ '=' :: lbrace :: n ++ [rbrace]
  | .jbool b => ' ' :: key ++ '=' :: lbrace :: (if b then lit "true" else lit "false") ++ [rbrace]
  | .jnull => ' ' :: key ++ '=' :: lbrace :: lit "null" ++ [rbrace]
  | _ => ' ' :: key ++ '=' :: lbrace :: lit "..." ++ [rbrace]

/-- One ` key="..."` fragment of the `html_attrs` loop in `format_fiber_node`
(src/snapshot.rs lines 307-316): keys already in `props` are skipped, and
only string values are appended. -/
def attr_fragment (props : List (Str × Json)) (key : Str) (value : Json) : Str :=
  if props.any (fun p => p.1 == key) then []
  else
    match value with
    | .jstr s => ' ' :: key ++ '=' :: '"' :: s ++ ['"']
    | _ => []

/-- The line built by `format_fiber_node` for an emitted node
(src/snapshot.rs lines 280-316). -/
def fiber_line (node : TreeNode) (depth : Nat) : Str :=
  match node with
  | .mk name is_component props ref_id _ aria_name _ html_attrs _ =>
    let base := indent_of depth ++ lit "- " ++ name
    let base :=
      if !is_component then
        match aria_name with
        | some a => base ++ ' ' :: '"' :: a ++ ['"']
        | none => base
      else base
    let base :=
      match ref_id with
      | some r => base ++ lit " [ref=" ++ r ++ [']']
      | none => base
    let base := base ++ props.flatMap (fun kv => prop_fragment kv.1 kv.2)
    match html_attrs with
    | some attrs => base ++ attrs.flatMap (fun kv => attr_fragment props kv.1 kv.2)
    | none => base

/-- The `depth > max` cut test shared by the formatters
(src/snapshot.rs lines 145-149 and 258-262). -/
def depth_cut (opts : SnapshotOptions) (depth : Nat) : Bool :=
  match opts.max_depth with
  | some m => depth > m
  | none => false

mutual

/-- `format_fiber_node` (src/snapshot.rs lines 252-323), returning the
emitted lines instead of pushing them onto a `&mut Vec`. -/
def format_fiber_node : TreeNode → Nat → SnapshotOptions → List Str
  | node@(.mk _ is_component _ _ _ _ tag _ children), depth, opts =>
    if depth_cut opts depth then []
    else if opts.interactive && !is_component
            && !(INTERACTIVE_TAGS.contains ((tag.getD []))) then
      format_fiber_children children depth opts
    else if opts.compact && is_component && !(has_interactive_descendant node) then
      []
    else
      fiber_line node depth :: format_fiber_children children (depth + 1) opts

/-- The `for child in &node.children` recursion of `format_fiber_node`. -/
def format_fiber_children : List TreeNode → Nat → SnapshotOptions → List Str
  | [], _, _ => []
  | c :: rest, depth, opts =>
    format_fiber_node c depth opts ++ format_fiber_children rest depth opts

end

def default_opts : SnapshotOptions :=
  { interactive := false, compact := false, react := false,
    max_depth := none, filter := none }

def tn_component (name : Str) (children : List TreeNode) : TreeNode :=
  .mk name true [] none none none none none children

def tn_host (tag : Str) (aria : Option Str) (r : Option Str)
    (children : List TreeNode) : TreeNode :=
  .mk tag false [] r none aria (some tag) none children

/-- The `for (i, part) in parts.iter().enumerate()` loop of `glob_match`
(src/snapshot.rs lines 340-353): returns the final `pos`, or `none` for an
early `return false`. -/
def glob_loop (text : Str) : List Str → Nat → Nat → Option Nat
  | [], _, pos => some pos
  | part :: rest, i, pos =>
    if part.isEmpty then glob_loop text rest (i + 1) pos
    else
      match find_sub (text.drop pos) part with
      | some idx =>
        if i == 0 && idx != 0 then none
        else glob_loop text rest (i + 1) (pos + idx + part.length)
      | none => none

/-- `glob_match` (src/snapshot.rs lines 335-356). -/
def glob_match (pattern text : Str) : Bool :=
  let parts := split_on_char '*' pattern
  if parts.length == 1 then text == pattern
  else
    match glob_loop text parts 0 0 with
    | none => false
    | some pos =>
      !(match parts.getLast? with
        | some p => !p.isEmpty
        | none => false)
      || pos == text.length

/-- `name_matches_filter` (src/snapshot.rs lines 325-333). -/
def name_matches_filter (name filter : Str) : Bool :=
  let name_lower := str_lower name
  let filter_lower := str_lower filter
  if filter.contains '*' then glob_match filter_lower name_lower
  else contains_sub name_lower filter_lower

mutual

/-- `collect_filtered_subtrees` (src/snapshot.rs lines 359-373). -/
def collect_filtered_subtrees : TreeNode → SnapshotOptions → List Str
  | node@(.mk name _ _ _ _ _ _ _ children), opts =>
    if name_matches_filter name (opts.filter.getD []) then
      format_fiber_node node 0 { opts with filter := none }
    else
      collect_filtered_children children opts

/-- The `for child in &node.children` recursion of `collect_filtered_subtrees`. -/
def collect_filtered_children : List TreeNode → SnapshotOptions → List Str
  | [], _ => []
  | c :: rest, opts =>
    collect_filtered_subtrees c opts ++ collect_filtered_children rest opts

end

mutual

/-- Analysis view of `collect_filtered_subtrees`: the nodes it emits as
top-level subtree roots, in discovery order. -/
def filtered_roots : TreeNode → SnapshotOptions → List TreeNode
  | node@(.mk name _ _ _ _ _ _ _ children), opts =>
    if name_matches_filter name (opts.filter.getD []) then [node]
    else filtered_roots_list children opts

/-- List version of `filtered_roots`. -/
def filtered_roots_list : List TreeNode → SnapshotOptions → List TreeNode
  | [], _ => []
  | c :: rest, opts => filtered_roots c opts ++ filtered_roots_list rest opts

end

mutual

/-- Analysis view of `format_fiber_node`: the `(node, depth)` pairs whose
lines it emits, in emission order. -/
def fiber_emit : TreeNode → Nat → SnapshotOptions → List (TreeNode × Nat)
  | node@(.mk _ is_component _ _ _ _ tag _ children), depth, opts =>
    if depth_cut opts depth then []
    else if opts.interactive && !is_component
            && !(INTERACTIVE_TAGS.contains ((tag.getD []))) then
      fiber_emit_list children depth opts
    else if opts.compact && is_component && !(has_interactive_descendant node) then
      []
    else
      (node, depth) :: fiber_emit_list children (depth + 1) opts

/-- List version of `fiber_emit`. -/
def fiber_emit_list : List TreeNode → Nat → SnapshotOptions → List (TreeNode × Nat)
  | [], _, _ => []
  | c :: rest, depth, opts =>
    fiber_emit c depth opts ++ fiber_emit_list rest depth opts

end

/-- The per-root rendering loop of `take_react_snapshot`
(src/snapshot.rs lines 237-243). -/
def fiber_tree_lines (tree : List TreeNode) (opts : SnapshotOptions) : List Str :=
  tree.flatMap (fun node =>
    if opts.filter.isSome then collect_filtered_subtrees node opts
    else format_fiber_node node 0 opts)

/-- `AXValue` (src/snapshot.rs lines 58-61). -/
structure AXValue where
  value : Option Json

/-- `AXNode` (src/snapshot.rs lines 44-56): CDP accessibility tree node. -/
inductive AXNode where
  | mk (node_id : Str) (role name : Option AXValue)
       (children : Option (List AXNode)) (child_ids : List Str)

def AXNode.node_id : AXNode → Str
  | .mk i _ _ _ _ => i

def AXNode.role : AXNode → Option AXValue
  | .mk _ r _ _ _ => r

def AXNode.ax_name : AXNode → Option AXValue
  | .mk _ _ n _ _ => n

def AXNode.children : AXNode → Option (List AXNode)
  | .mk _ _ _ c _ => c

def AXNode.child_ids : AXNode → List Str
  | .mk _ _ _ _ ids => ids

/-- `ax_value_str` (src/snapshot.rs lines 138-142): the string payload of an
`AXValue`, when its JSON value is a string. -/
def ax_value_str : Option AXValue → Option Str
  | some av =>
    match av.value with
    | some (.jstr s) => some s
    | _ => none
  | none => none

/-- `build_ax_tree` (src/snapshot.rs lines 128-136). -/
def build_ax_tree (nodes : List AXNode) : List AXNode :=
  match nodes with
  | [] => []
  | n :: _ => [n]

mutual

/-- `format_ax_node` (src/snapshot.rs lines 144-196), returning the emitted
lines instead of pushing them onto a `&mut Vec`. -/
def format_ax_node : AXNode → Nat → SnapshotOptions → List Str
  | .mk _ role name children _, depth, opts =>
    if depth_cut opts depth then []
    else
      let role_s := (ax_value_str role).getD []
      let name_s := (ax_value_str name).getD []
      if role_s == lit "none" || role_s == lit "Ignored" || role_s == lit "generic" then
        format_ax_children children depth opts
      else if opts.interactive && !(INTERACTIVE_ROLES.contains role_s) then
        format_ax_children children depth opts
      else if opts.compact && name_s.isEmpty && !(INTERACTIVE_ROLES.contains role_s) then
        format_ax_children children depth opts
      else
        (if name_s.isEmpty then indent_of depth ++ lit "- " ++ role_s
         else indent_of depth ++ lit "- " ++ role_s ++ ' ' :: '"' :: name_s ++ ['"'])
        :: format_ax_children children (depth + 1) opts

/-- The `if let Some(children) = &node.children` recursion of `format_ax_node`. -/
def format_ax_children : Option (List AXNode) → Nat → SnapshotOptions → List Str
  | none, _, _ => []
  | some cs, depth, opts => format_ax_node_list cs depth opts

/-- The `for child in children` recursion of `format_ax_node`. -/
def format_ax_node_list : List AXNode → Nat → SnapshotOptions → List Str
  | [], _, _ => []
  | c :: rest, depth, opts =>
    format_ax_node c depth opts ++ format_ax_node_list rest depth opts

end

/-- The lines produced by the AX path for a parsed node array
(src/snapshot.rs lines 115-119). -/
def aria_lines (nodes : List AXNode) (opts : SnapshotOptions) : List Str :=
  (build_ax_tree nodes).flatMap (fun n => format_ax_node n 0 opts)

/-- The pure rendering tail of `take_aria_snapshot`
(src/snapshot.rs lines 111-125), applied to the parsed node array. -/
def aria_render (nodes : List AXNode) (opts : SnapshotOptions) : Str :=
  if nodes.isEmpty then lit "(empty page)"
  else
    let lines := aria_lines nodes opts
    if lines.isEmpty then lit "(empty page)" else join_lines lines

def ax_string_value (s : String) : Option AXValue := some ⟨some (.jstr (lit s))⟩

/-- `FiberResult` (src/snapshot.rs lines 35-41). -/
structure FiberResult where
  found : Bool
  tree : List TreeNode
  all_minified : Bool

/-- `serde_json::Value::get(key)` on an object's field list: first match. -/
def j_lookup : List (Str × Json) → Str → Option Json
  | [], _ => none
  | (k, v) :: rest, key => if k == key then some v else j_lookup rest key

/-- Size bound for looked-up fields, used for parser termination. -/
def j_lookup_size :
    ∀ (fs : List (Str × Json)) (key : Str) (v : Json),
      j_lookup fs key = some v → sizeOf v < sizeOf fs
  | [], _, _, h => by simp [j_lookup] at h
  | (k, w) :: rest, key, v, h => by
    by_cases hk : (k == key) = true
    · simp only [j_lookup, hk, if_true, Option.some.injEq] at h
      subst h
      simp only [List.cons.sizeOf_spec, Prod.mk.sizeOf_spec]
      omega
    · have hrec := j_lookup_size rest key v (by simpa [j_lookup, hk] using h)
      simp only [List.cons.sizeOf_spec]
      omega

/-- serde: a required `String` field. -/
def field_string : Option Json → Option Str
  | some (.jstr s) => some s
  | _ => none

/-- serde: a required `bool` field. -/
def field_bool : Option Json → Option Bool
  | some (.jbool b) => some b
  | _ => none

/-- serde: an `Option<String>` field (missing or `null` is `None`). -/
def field_opt_string : Option Json → Option (Option Str)
  | none => some none
  | some .jnull => some none
  | some (.jstr s) => some (some s)
  | some _ => none

/-- serde: a `#[serde(default)] Map<String, Value>` field. -/
def field_map : Option Json → Option (List (Str × Json))
  | none => some []
  | some (.jobj fs) => some fs
  | some _ => none

/-- serde: a `#[serde(default)] Option<Map<String, Value>>` field. -/
def field_opt_map : Option Json → Option (Option (List (Str × Json)))
  | none => some none
  | some .jnull => some none
  | some (.jobj fs) => some (some fs)
  | some _ => none

/-- serde: the elements of a `Vec<String>`. -/
def string_items : List Json → Option (List Str)
  | [] => some []
  | .jstr s :: rest => (string_items rest).map (s :: ·)
  | _ => none

/-- serde: a `#[serde(default)] Vec<String>` field. -/
def field_string_list : Option Json → Option (List Str)
  | none => some []
  | some (.jarr items) => string_items items
  | some _ => none

/-- serde: `AXValue` from a JSON value (a struct requires an object; its
`value: Option<Value>` is `None` when missing or `null`). -/
def parse_ax_value : Json → Option AXValue
  | .jobj fs =>
    some ⟨match j_lookup fs (lit "value") with
          | none => none
          | some .jnull => none
          | some v => some v⟩
  | _ => none

/-- serde: an `Option<AXValue>` field. -/
def field_opt_ax_value : Option Json → Option (Option AXValue)
  | none => some none
  | some .jnull => some none
  | some j => (parse_ax_value j).map some

mutual

/-- serde: `AXNode` from a JSON value, with the `camelCase` renames of
src/snapshot.rs lines 44-56. -/
def parse_ax_node : Json → Option AXNode
  | .jobj fs => do
    let node_id ← field_string (j_lookup fs (lit "nodeId"))
    let role ← field_opt_ax_value (j_lookup fs (lit "role"))
    let name ← field_opt_ax_value (j_lookup fs (lit "name"))
    let children ←
      match h : j_lookup fs (lit "children") with
      | none => some none
      | some .jnull => some none
      | some (.jarr items) => (parse_ax_node_items items).map some
      | some _ => none
    let child_ids ← field_string_list (j_lookup fs (lit "childIds"))
    some (.mk node_id role name children child_ids)
  | _ => none
termination_by j => sizeOf j
decreasing_by
  simp_wf
  have hlt := j_lookup_size fs (lit "children") (Json.jarr items) h
  simp only [Json.jarr.sizeOf_spec] at hlt
  omega

/-- serde: the elements of a `Vec<AXNode>`. -/
def parse_ax_node_items : List Json → Option (List AXNode)
  | [] => some []
  | j :: rest => do
    let n ← parse_ax_node j
    let ns ← parse_ax_node_items rest
    some (n :: ns)
termination_by items => sizeOf items
decreasing_by
  all_goals simp_wf
  all_goals omega

end

mutual

/-- serde: `TreeNode` from a JSON value, with the `camelCase` renames and
`#[serde(rename = "ref")]` of src/snapshot.rs lines 16-33. -/
def parse_tree_node : Json → Option TreeNode
  | .jobj fs => do
    let name ← field_string (j_lookup fs (lit "name"))
    let is_component ← field_bool (j_lookup fs (lit "isComponent"))
    let props ← field_map (j_lookup fs (lit "props"))
    let ref_id ← field_opt_string (j_lookup fs (lit "ref"))
    let role ← field_opt_string (j_lookup fs (lit "role"))
    let aria_name ← field_opt_string (j_lookup fs (lit "ariaName"))
    let tag ← field_opt_string (j_lookup fs (lit "tag"))
    let html_attrs ← field_opt_map (j_lookup fs (lit "htmlAttrs"))
    let children ←
      match h : j_lookup fs (lit "children") with
      | none => some []
      | some (.jarr items) => parse_tree_node_items items
      | some _ => none
    some (.mk name is_component props ref_id role aria_name tag html_attrs children)
  | _ => none
termination_by j => sizeOf j
decreasing_by
  simp_wf
  have hlt := j_lookup_size fs (lit "children") (Json.jarr items) h
  simp only [Json.jarr.sizeOf_spec] at hlt
  omega

/-- serde: the elements of a `Vec<TreeNode>`. -/
def parse_tree_node_items : List Json → Option (List TreeNode)
  | [] => some []
  | j :: rest => do
    let n ← parse_tree_node j
    let ns ← parse_tree_node_items rest
    some (n :: ns)
termination_by items => sizeOf items
decreasing_by
  all_goals simp_wf
  all_goals omega

end

/-- serde: `FiberResult` from the JSON returned by the fiber probe
(src/snapshot.rs lines 35-41 and 206). -/
def parse_fiber_result : Json → Option FiberResult
  | .jobj fs => do
    let found ← field_bool (j_lookup fs (lit "found"))
    let tree ←
      match j_lookup fs (lit "tree") with
      | some (.jarr items) => parse_tree_node_items items
      | _ => none
    let all_minified ← field_bool (j_lookup fs (lit "allMinified"))
    some ⟨found, tree, all_minified⟩
  | _ => none

/-- The minified-build warning line (src/snapshot.rs line 234). -/
def MINIFIED_WARNING : Str :=
  lit "# Warning: All component names are minified (production build)"

/-- The rendering tail of `take_react_snapshot` once a `FiberResult` with
`found == true` is in hand (src/snapshot.rs lines 232-249). -/
def render_fiber_result (fiber : FiberResult) (opts : SnapshotOptions) : Str :=
  let lines :=
    (if fiber.all_minified then [MINIFIED_WARNING] else [])
    ++ fiber_tree_lines fiber.tree opts
  if lines.isEmpty then lit "(empty)" else join_lines lines

/-- The transport capability consumed by the dispatcher: the responses the
CDP connection would give to the one `send("Accessibility.getFullAXTree")`
call and the one `eval(fiber walker)` call of a snapshot
(`Err` is a failed transport call). -/
structure Transport where
  ax_response : Except Str Json
  eval_response : Except Str Json

/-- The failure outcomes of the snapshot dispatcher. -/
inductive SnapshotError where
  | transport (msg : Str)
  | no_nodes
  | ax_parse
deriving DecidableEq

/-- `take_aria_snapshot` (src/snapshot.rs lines 98-126): `no_nodes` is the
`anyhow!("No accessibility nodes returned")` error and `ax_parse` the
`serde_json::from_value::<Vec<AXNode>>` failure. -/
def take_aria_snapshot (tr : Transport) (opts : SnapshotOptions) :
    Except SnapshotError Str :=
  match tr.ax_response with
  | .error e => .error (.transport e)
  | .ok result =>
    match (match result with
           | .jobj fs => j_lookup fs (lit "nodes")
           | _ => none) with
    | none => .error .no_nodes
    | some nodes_val =>
      match (match nodes_val with
             | .jarr items => parse_ax_node_items items
             | _ => none) with
      | none => .error .ax_parse
      | some nodes => .ok (aria_render nodes opts)

/-- `take_react_snapshot` (src/snapshot.rs lines 198-250). -/
def take_react_snapshot (tr : Transport) (opts : SnapshotOptions) :
    Except SnapshotError Str :=
  match tr.eval_response with
  | .error e => .error (.transport e)
  | .ok result =>
    match parse_fiber_result result with
    | none => take_aria_snapshot tr { opts with react := false }
    | some fiber =>
      if !fiber.found then take_aria_snapshot tr { opts with react := false }
      else .ok (render_fiber_result fiber opts)

/-- `take_snapshot` (src/snapshot.rs lines 87-96). -/
def take_snapshot (tr : Transport) (opts : SnapshotOptions) :
    Except SnapshotError Str :=
  if opts.react then take_react_snapshot tr opts else take_aria_snapshot tr opts

/-- Modelled from the spec: the options bag of the full dispatcher, with the
`full` and `mini` flags (spec §3).  The `snapshot.rs` present under `src/`
predates these modes — its callers (`commands.rs`) and tests
(`snapshot_tests.rs`) already construct `SnapshotOptions` with `full` and
`mini` fields that the struct in `src/snapshot.rs` lacks. -/
structure FullSnapshotOptions where
  interactive : Bool
  compact : Bool
  react : Bool
  full : Bool
  mini : Bool
  max_depth : Option Nat
  filter : Option Str

/-- The four snapshot sources (spec §4.6). -/
inductive SnapshotMode where
  | mini
  | full
  | react
  | ax
deriving DecidableEq

/-- Modelled from the spec: "Select mode by precedence (mini > full >
react > ax)" (spec §4.6 step 1, §3 "Mode precedence (top wins)").  The
dispatch itself is the part of `snapshot.rs` missing from `src/`. -/
def select_mode (o : FullSnapshotOptions) : SnapshotMode :=
  if o.mini then .mini
  else if o.full then .full
  else if o.react then .react
  else .ax

/-- Formalisation of claim C1's description of the reconstruction (spec §4.3
steps 1-2): roots are the input nodes whose `node_id` no node's `child_ids`
references, in input order; if there are none, the first input node is the
sole root.  Stated from the claim's words, to be compared with
`build_ax_tree`. -/
def ax_claim_roots (nodes : List AXNode) : List AXNode :=
  let referenced := nodes.flatMap AXNode.child_ids
  let roots := nodes.filter (fun n => !(referenced.contains n.node_id))
  if roots.isEmpty then
    match nodes with
    | [] => []
    | n :: _ => [n]
  else roots

/-- Rose-tree induction for `TreeNode`. -/
def tree_node_ind (motive : TreeNode → Prop)
    (step : ∀ name ic props rf ro an tg ha children,
      (∀ c ∈ children, motive c) →
      motive (.mk name ic props rf ro an tg ha children)) :
    ∀ t, motive t
  | .mk name ic props rf ro an tg ha children =>
    step name ic props rf ro an tg ha children
      (fun c hc => tree_node_ind motive step c)
termination_by t => sizeOf t
decreasing_by
  have hlt := List.sizeOf_lt_of_mem hc
  simp only [TreeNode.mk.sizeOf_spec]
  omega

/-- Rose-tree induction for `AXNode`. -/
def ax_node_ind (motive : AXNode → Prop)
    (step : ∀ node_id role name children child_ids,
      (∀ cs, children = some cs → ∀ c ∈ cs, motive c) →
      motive (.mk node_id role name children child_ids)) :
    ∀ n, motive n
  | .mk node_id role name children child_ids =>
    step node_id role name children child_ids
      (fun cs hcs c hc => ax_node_ind motive step c)
termination_by n => sizeOf n
decreasing_by
  subst hcs
  have hlt := List.sizeOf_lt_of_mem hc
  simp only [AXNode.mk.sizeOf_spec, Option.some.sizeOf_spec]
  omega

mutual

/-- Sanity predicate on AX input used by the amended line-hygiene claim:
every node's rendered role is nonempty and does not itself end in a space,
and neither rendered role nor rendered name contains a newline. -/
def ax_strings_ok : AXNode → Bool
  | .mk _ role name children _ =>
    let role_s := (ax_value_str role).getD []
    let name_s := (ax_value_str name).getD []
    !role_s.isEmpty && role_s.getLast? != some ' '
      && !(role_s.contains '\n') && !(name_s.contains '\n')
      && ax_strings_ok_children children

/-- `ax_strings_ok` through an optional child list. -/
def ax_strings_ok_children : Option (List AXNode) → Bool
  | none => true
  | some cs => ax_strings_ok_list cs

/-- `ax_strings_ok` over a child list. -/
def ax_strings_ok_list : List AXNode → Bool
  | [] => true
  | c :: rest => ax_strings_ok c && ax_strings_ok_list rest

end

mutual

/-- Two parsed AX nodes that are identical except for the contents of their
`child_ids` fields, at every nesting level (claim C9's relation). -/
def ax_eq_mod : AXNode → AXNode → Prop
  | .mk id1 role1 name1 ch1 _, .mk id2 role2 name2 ch2 _ =>
    id1 = id2 ∧ role1 = role2 ∧ name1 = name2 ∧ ax_eq_mod_children ch1 ch2

/-- `ax_eq_mod` through the optional child lists. -/
def ax_eq_mod_children : Option (List AXNode) → Option (List AXNode) → Prop
  | none, none => True
  | some l1, some l2 => ax_eq_mod_list l1 l2
  | _, _ => False

/-- Pointwise `ax_eq_mod` on node sequences. -/
def ax_eq_mod_list : List AXNode → List AXNode → Prop
  | [], [] => True
  | a :: resta, b :: restb => ax_eq_mod a b ∧ ax_eq_mod_list resta restb
  | _, _ => False

end

/-- Two AX nodes, neither referenced by any `child_ids` (C1 input). -/
def c1_nodes : List AXNode :=
  [AXNode.mk (lit "1") (ax_string_value "WebArea") none none [],
   AXNode.mk (lit "2") (ax_string_value "button") none none []]

/-- Fiber tree whose root matches the filter and whose nested child matches
it again (C4 input). -/
def c4_tree : TreeNode := tn_component (lit "Card") [tn_component (lit "Card") []]

def c4_opts : SnapshotOptions := { default_opts with filter := some (lit "Card") }

/-- A non-interactive host root with two interactive children (C5 input). -/
def c5_tree : TreeNode :=
  tn_host (lit "div") none none
    [tn_host (lit "button") none none [], tn_host (lit "button") none none []]

def c5_opts : SnapshotOptions :=
  { default_opts with interactive := true, max_depth := some 0 }

/-- AX node whose `role` and `name` are both absent (C8 input). -/
def c8_node : AXNode := AXNode.mk (lit "1") none none none []

/-- Witness input for the amended C8: ordinary role/name strings. -/
def c8_ok_nodes : List AXNode :=
  [AXNode.mk (lit "1") (ax_string_value "WebArea") (ax_string_value "Example")
    (some [AXNode.mk (lit "2") (ax_string_value "button") (ax_string_value "OK") none []])
    [lit "2"]]

/-- C9 witness pair: identical nodes except for `child_ids` contents. -/
def c9_left : List AXNode :=
  [AXNode.mk (lit "1") (ax_string_value "WebArea") none
    (some [AXNode.mk (lit "2") (ax_string_value "button") (ax_string_value "OK") none [lit "9"]])
    [lit "2"],
   AXNode.mk (lit "3") (ax_string_value "link") none none []]

/-- Same as `c9_left` with every `child_ids` list replaced. -/
def c9_right : List AXNode :=
  [AXNode.mk (lit "1") (ax_string_value "WebArea") none
    (some [AXNode.mk (lit "2") (ax_string_value "button") (ax_string_value "OK") none []])
    [lit "7", lit "8"],
   AXNode.mk (lit "3") (ax_string_value "link") none none [lit "1"]]

/-- C3 witness transport: the fiber probe evaluates to a string (which does
not parse as the fiber schema), and the AX tree request returns an empty
`nodes` array. -/
def c3_transport : Transport :=
  { ax_response := .ok (Json.jobj [(lit "nodes", Json.jarr [])]),
    eval_response := .ok (Json.jstr (lit "x")) }

def c3_opts : SnapshotOptions := { default_opts with react := true }

/-- C6 witness tree and options (glob suffix pattern). -/
def c6_tree : TreeNode :=
  tn_component (lit "App") [tn_component (lit "ComicCard") []]

def c6_root : TreeNode := tn_component (lit "ComicCard") []

def c6_opts : SnapshotOptions := { default_opts with filter := some (lit "*Card") }

/-- C7 witness tree: a host button under a component. -/
def c7_tree : TreeNode :=
  tn_component (lit "App")
    [tn_host (lit "div") none none
      [tn_host (lit "button") (some (lit "OK")) (some (lit "e1")) []]]

def c7_opts : SnapshotOptions := { default_opts with interactive := true }

/-- C10 witness fiber result: minified build whose only node is filtered
out by an unmatched filter. -/
def c10_fiber : FiberResult :=
  { found := true, tree := [tn_component (lit "X") []], all_minified := true }

def c10_opts : SnapshotOptions :=
  { default_opts with react := true, filter := some (lit "NoSuchName") }

/-- "The line ends with a trailing space". -/
def has_trailing_space (l : Str) : Bool := l.getLast? == some ' '

/-! ### Generic lemmas about the string helpers -/

theorem str_starts_with_nil (s : Str) : str_starts_with s [] = true := by
  cases s <;> rfl

theorem str_starts_with_iff (p : Str) :
    ∀ s, str_starts_with s p = true ↔ ∃ t, s = p ++ t := by
  induction p with
  | nil =>
    intro s
    simp only [str_starts_with_nil, List.nil_append, true_iff]
    exact ⟨s, rfl⟩
  | cons b bs ih =>
    intro s
    cases s with
    | nil => simp [str_starts_with]
    | cons a rest =>
      simp only [str_starts_with, Bool.and_eq_true, beq_iff_eq, ih rest,
        List.cons_append]
      constructor
      · rintro ⟨h1, t, h2⟩
        exact ⟨t, by rw [h1, h2]⟩
      · rintro ⟨t, h⟩
        injection h with h1 h2
        exact ⟨h1, t, h2⟩

theorem find_sub_starts (needle : Str) :
    ∀ (hay : Str) (idx : Nat), find_sub hay needle = some idx →
      str_starts_with (hay.drop idx) needle = true := by
  intro hay
  induction hay with
  | nil =>
    intro idx h
    simp only [find_sub, List.isEmpty_iff] at h
    split at h
    · rename_i hne
      injection h with h0
      subst h0
      subst hne
      rfl
    · exact Option.noConfusion h
  | cons a rest ih =>
    intro idx h
    rw [find_sub] at h
    split at h
    · rename_i hs
      injection h with h0
      subst h0
      exact hs
    · rcases Option.map_eq_some'.mp h with ⟨j, hj, hidx⟩
      subst hidx
      simpa using ih j hj

theorem ends_of_starts_drop (s p : Str) (idx : Nat)
    (h1 : str_starts_with (s.drop idx) p = true) (h2 : idx + p.length = s.length) :
    str_ends_with s p = true := by
  rcases (str_starts_with_iff p _).mp h1 with ⟨t, ht⟩
  have hlen : (s.drop idx).length = s.length - idx := List.length_drop idx s
  rw [ht, List.length_append] at hlen
  have hidx : idx ≤ s.length := by omega
  have ht0 : t.length = 0 := by omega
  have ht' : t = [] := List.length_eq_zero.mp ht0
  subst ht'
  rw [List.append_nil] at ht
  have : s.length - p.length = idx := by omega
  rw [str_ends_with, this, ht]
  exact (str_starts_with_iff p p).mpr ⟨[], (List.append_nil p).symm⟩

theorem split_no_occurrence (c : Char) :
    ∀ s : Str, s.contains c = false → split_on_char c s = [s] := by
  intro s
  induction s with
  | nil => intro _; rfl
  | cons x rest ih =>
    intro h
    simp only [List.contains_cons, Bool.or_eq_false_iff, beq_eq_false_iff_ne] at h
    rw [split_on_char, if_neg (by simpa using Ne.symm h.1), ih h.2]

theorem split_after (c : Char) :
    ∀ (l s : Str), l.contains c = false →
      split_on_char c (l ++ c :: s) = l :: split_on_char c s := by
  intro l
  induction l with
  | nil =>
    intro s _
    simp only [List.nil_append]
    rw [split_on_char, if_pos (by simp)]
  | cons x l' ih =>
    intro s h
    simp only [List.contains_cons, Bool.or_eq_false_iff, beq_eq_false_iff_ne] at h
    simp only [List.cons_append]
    rw [split_on_char, if_neg (by simpa using Ne.symm h.1), ih s h.2]

theorem split_join (lines : List Str) :
    lines ≠ [] → (∀ l ∈ lines, l.contains '\n' = false) →
    split_on_char '\n' (join_lines lines) = lines := by
  induction lines with
  | nil => intro h _; exact absurd rfl h
  | cons l rest ih =>
    intro _ hall
    cases rest with
    | nil =>
      rw [join_lines]
      exact split_no_occurrence '\n' l (hall l (by simp))
    | cons l' rest' =>
      have hj : join_lines (l :: l' :: rest') = l ++ '\n' :: join_lines (l' :: rest') := by
        simp [join_lines]
      rw [hj, split_after '\n' l _ (hall l (by simp)),
        ih (List.cons_ne_nil l' rest') (fun x hx => hall x (by simp [hx]))]

theorem join_lines_single_head (l : Str) (rest : List Str) (hd : Char)
    (h : l.headI = hd) (hne : l ≠ []) : (join_lines (l :: rest)).headI = hd := by
  cases rest with
  | nil => rw [join_lines]; exact h
  | cons l' rest' =>
    have hj : join_lines (l :: l' :: rest') = l ++ '\n' :: join_lines (l' :: rest') := by
      simp [join_lines]
    rw [hj]
    cases l with
    | nil => exact absurd rfl hne
    | cons a s => simpa using h

theorem str_ends_with_nil (s : Str) : str_ends_with s [] = true := by
  rw [str_ends_with]
  exact str_starts_with_nil _

theorem split_star_cons (p : Str) :
    split_on_char '*' ('*' :: p) = [] :: split_on_char '*' p := by
  rw [split_on_char, if_pos (by simp)]

/-- Soundness of `glob_match` for `*P` patterns with star-free `P`: a match
means the text ends with `P`. -/
theorem glob_suffix_sound (p text : Str) (hp : p.contains '*' = false)
    (h : glob_match ('*' :: p) text = true) : str_ends_with text p = true := by
  have hsplit : split_on_char '*' ('*' :: p) = [[], p] := by
    rw [split_star_cons, split_no_occurrence '*' p hp]
  rw [glob_match] at h
  simp only [hsplit] at h
  cases hp0 : p with
  | nil => exact str_ends_with_nil text
  | cons q qs =>
    subst hp0
    simp only [List.length_cons, List.length_nil] at h
    rw [if_neg (by decide)] at h
    rw [glob_loop, if_pos (by decide)] at h
    rw [glob_loop, if_neg (by simp)] at h
    rw [List.drop_zero] at h
    cases hfind : find_sub text (q :: qs) with
    | none => rw [hfind] at h; simp at h
    | some idx =>
      rw [hfind] at h
      simp at h
      rw [glob_loop] at h
      simp only [beq_iff_eq] at h
      exact ends_of_starts_drop text (q :: qs) idx (find_sub_starts _ _ _ hfind)
        (by simpa using h)

/-- Soundness of `glob_match` for `P*` patterns with star-free `P`: a match
means the text starts with `P`. -/
theorem glob_starts_sound (p text : Str) (hp : p.contains '*' = false)
    (h : glob_match (p ++ ['*']) text = true) : str_starts_with text p = true := by
  have hsplit : split_on_char '*' (p ++ ['*']) = [p, []] := by
    simpa using split_after '*' p [] hp
  rw [glob_match] at h
  simp only [hsplit] at h
  cases hp0 : p with
  | nil => exact str_starts_with_nil text
  | cons q qs =>
    subst hp0
    simp only [List.length_cons, List.length_nil] at h
    rw [if_neg (by decide)] at h
    rw [glob_loop, if_neg (by simp)] at h
    rw [List.drop_zero] at h
    cases hfind : find_sub text (q :: qs) with
    | none => rw [hfind] at h; simp at h
    | some idx =>
      rw [hfind] at h
      simp at h
      by_cases hidx : idx = 0
      · subst hidx
        simpa using find_sub_starts (q :: qs) text 0 hfind
      · rw [if_neg (by simpa using hidx)] at h
        simp at h

theorem char_toNat_ofNat (n : Nat) (h : n.isValidChar) : (Char.ofNat n).toNat = n := by
  simp only [Char.ofNat, h, dite_true, Char.ofNatAux, Char.toNat]
  simp [UInt32.toNat, UInt32.ofNatCore]

theorem asciiLower_eq_star (c : Char) (h : asciiLower c = '*') : c = '*' := by
  by_cases hc : 65 ≤ c.toNat ∧ c.toNat ≤ 90
  · exfalso
    have hv : (c.toNat + 32).isValidChar := Or.inl (by omega)
    have htn := congrArg Char.toNat h
    rw [asciiLower, if_pos hc] at htn
    rw [char_toNat_ofNat _ hv] at htn
    have h42 : ('*').toNat = 42 := by decide
    omega
  · rw [asciiLower, if_neg hc] at h
    exact h

theorem str_lower_star_free (p : Str) (hp : p.contains '*' = false) :
    (str_lower p).contains '*' = false := by
  by_contra hmem
  rw [Bool.not_eq_false] at hmem
  have : '*' ∈ str_lower p := List.elem_iff.mp hmem
  rcases List.mem_map.mp this with ⟨c, hc, hlc⟩
  have : c = '*' := asciiLower_eq_star c hlc
  subst this
  have : ('*' ∈ p) := hc
  have hcont : p.contains '*' = true := by simpa using this
  rw [hcont] at hp
  exact Bool.noConfusion hp

theorem str_lower_cons_star (p : Str) : str_lower ('*' :: p) = '*' :: str_lower p := by
  simp only [str_lower, List.map_cons]
  rw [show asciiLower '*' = '*' from by decide]

theorem str_lower_append_star (p : Str) :
    str_lower (p ++ ['*']) = str_lower p ++ ['*'] := by
  simp only [str_lower, List.map_append, List.map_cons, List.map_nil]
  rw [show asciiLower '*' = '*' from by decide]

/-! ### Lemmas about the fiber formatter -/

theorem fiber_children_eq_map (cs : List TreeNode)
    (ih : ∀ c ∈ cs, ∀ (d : Nat) (o : SnapshotOptions),
      format_fiber_node c d o = (fiber_emit c d o).map (fun p => fiber_line p.1 p.2)) :
    ∀ (d : Nat) (o : SnapshotOptions),
      format_fiber_children cs d o
        = (fiber_emit_list cs d o).map (fun p => fiber_line p.1 p.2) := by
  induction cs with
  | nil => intro d o; rfl
  | cons c rest ihr =>
    intro d o
    rw [format_fiber_children, fiber_emit_list, List.map_append,
      ih c (by simp) d o, ihr (fun c hc d o => ih c (by simp [hc]) d o) d o]

/-- `format_fiber_node` emits exactly the `fiber_line` of each pair that
`fiber_emit` records, in order. -/
theorem format_fiber_eq_map (t : TreeNode) :
    ∀ (depth : Nat) (opts : SnapshotOptions),
      format_fiber_node t depth opts
        = (fiber_emit t depth opts).map (fun p => fiber_line p.1 p.2) := by
  induction t using tree_node_ind with
  | step name ic props rf ro an tg ha children ih =>
    intro depth opts
    rw [format_fiber_node, fiber_emit]
    by_cases h1 : depth_cut opts depth = true
    · rw [if_pos h1, if_pos h1]; rfl
    · rw [if_neg h1, if_neg h1]
      by_cases h2 : (opts.interactive && !ic
          && !(INTERACTIVE_TAGS.contains (tg.getD []))) = true
      · rw [if_pos h2, if_pos h2]
        exact fiber_children_eq_map children ih depth opts
      · rw [if_neg h2, if_neg h2]
        by_cases h3 : (opts.compact && ic
            && !(has_interactive_descendant (.mk name ic props rf ro an tg ha children))) = true
        · rw [if_pos h3, if_pos h3]; rfl
        · rw [if_neg h3, if_neg h3, List.map_cons,
            fiber_children_eq_map children ih (depth + 1) opts]

theorem fiber_emit_list_mem (cs : List TreeNode) (d : Nat) (o : SnapshotOptions)
    (p : TreeNode × Nat) (hp : p ∈ fiber_emit_list cs d o) :
    ∃ c ∈ cs, p ∈ fiber_emit c d o := by
  induction cs with
  | nil => rw [fiber_emit_list] at hp; exact absurd hp (by simp)
  | cons c rest ihr =>
    rw [fiber_emit_list] at hp
    rcases List.mem_append.mp hp with h | h
    · exact ⟨c, by simp, h⟩
    · rcases ihr h with ⟨c', hc', hpc'⟩
      exact ⟨c', by simp [hc'], hpc'⟩

/-- Under `interactive`, every host pair recorded by `fiber_emit` carries an
interactive tag. -/
theorem fiber_emit_interactive (t : TreeNode) :
    ∀ (depth : Nat) (opts : SnapshotOptions), opts.interactive = true →
      ∀ p ∈ fiber_emit t depth opts, p.1.is_component = false →
        INTERACTIVE_TAGS.contains (p.1.tag.getD []) = true := by
  induction t using tree_node_ind with
  | step name ic props rf ro an tg ha children ih =>
    intro depth opts hint p hp hcomp
    rw [fiber_emit] at hp
    by_cases h1 : depth_cut opts depth = true
    · rw [if_pos h1] at hp
      exact absurd hp (by simp)
    · rw [if_neg h1] at hp
      by_cases h2 : (opts.interactive && !ic
          && !(INTERACTIVE_TAGS.contains (tg.getD []))) = true
      · rw [if_pos h2] at hp
        rcases fiber_emit_list_mem children depth opts p hp with ⟨c, hc, hpc⟩
        exact ih c hc depth opts hint p hpc hcomp
      · rw [if_neg h2] at hp
        by_cases h3 : (opts.compact && ic
            && !(has_interactive_descendant (.mk name ic props rf ro an tg ha children))) = true
        · rw [if_pos h3] at hp
          exact absurd hp (by simp)
        · rw [if_neg h3] at hp
          rcases List.mem_cons.mp hp with h | h
          · subst h
            simp only [TreeNode.is_component] at hcomp
            subst hcomp
            simp only [hint, Bool.not_false, Bool.true_and] at h2
            simp only [TreeNode.tag]
            simpa using h2
          · rcases fiber_emit_list_mem children (depth + 1) opts p h with ⟨c, hc, hpc⟩
            exact ih c hc (depth + 1) opts hint p hpc hcomp

theorem collect_filtered_children_eq (cs : List TreeNode)
    (ih : ∀ c ∈ cs, ∀ (o : SnapshotOptions),
      collect_filtered_subtrees c o
        = (filtered_roots c o).flatMap
            (fun n => format_fiber_node n 0 { o with filter := none })) :
    ∀ (o : SnapshotOptions),
      collect_filtered_children cs o
        = (filtered_roots_list cs o).flatMap
            (fun n => format_fiber_node n 0 { o with filter := none }) := by
  induction cs with
  | nil => intro o; rfl
  | cons c rest ihr =>
    intro o
    rw [collect_filtered_children, filtered_roots_list, List.flatMap_append,
      ih c (by simp) o, ihr (fun c hc o => ih c (by simp [hc]) o) o]

/-- `collect_filtered_subtrees` renders exactly the subtrees of the
`filtered_roots`, each at depth 0 with the filter cleared. -/
theorem collect_filtered_eq_flat (t : TreeNode) :
    ∀ (opts : SnapshotOptions),
      collect_filtered_subtrees t opts
        = (filtered_roots t opts).flatMap
            (fun n => format_fiber_node n 0 { opts with filter := none }) := by
  induction t using tree_node_ind with
  | step name ic props rf ro an tg ha children ih =>
    intro opts
    rw [collect_filtered_subtrees, filtered_roots]
    by_cases hm : name_matches_filter name (opts.filter.getD []) = true
    · rw [if_pos hm, if_pos hm]
      simp
    · rw [if_neg hm, if_neg hm]
      exact collect_filtered_children_eq children ih opts

theorem filtered_roots_list_mem (cs : List TreeNode) (o : SnapshotOptions)
    (n : TreeNode) (hn : n ∈ filtered_roots_list cs o) :
    ∃ c ∈ cs, n ∈ filtered_roots c o := by
  induction cs with
  | nil => rw [filtered_roots_list] at hn; exact absurd hn (by simp)
  | cons c rest ihr =>
    rw [filtered_roots_list] at hn
    rcases List.mem_append.mp hn with h | h
    · exact ⟨c, by simp, h⟩
    · rcases ihr h with ⟨c', hc', hnc'⟩
      exact ⟨c', by simp [hc'], hnc'⟩

/-- Every filtered root's name matches the filter. -/
theorem filtered_roots_match (t : TreeNode) :
    ∀ (opts : SnapshotOptions) (n : TreeNode), n ∈ filtered_roots t opts →
      name_matches_filter n.name (opts.filter.getD []) = true := by
  induction t using tree_node_ind with
  | step name ic props rf ro an tg ha children ih =>
    intro opts n hn
    rw [filtered_roots] at hn
    by_cases hm : name_matches_filter name (opts.filter.getD []) = true
    · rw [if_pos hm] at hn
      rcases List.mem_singleton.mp hn with rfl
      simpa [TreeNode.name] using hm
    · rw [if_neg hm] at hn
      rcases filtered_roots_list_mem children opts n hn with ⟨c, hc, hnc⟩
      exact ih c hc opts n hnc

theorem format_depth_pos_nil (c : TreeNode) (opts : SnapshotOptions)
    (h : opts.max_depth = some 0) (d : Nat) (hd : 0 < d) :
    format_fiber_node c d opts = [] := by
  rcases c with ⟨name, ic, props, rf, ro, an, tg, ha, ch⟩
  rw [format_fiber_node, if_pos]
  simp [depth_cut, h]
  omega

theorem format_children_depth_pos_nil (cs : List TreeNode) (opts : SnapshotOptions)
    (h : opts.max_depth = some 0) (d : Nat) (hd : 0 < d) :
    format_fiber_children cs d opts = [] := by
  induction cs with
  | nil => rfl
  | cons c rest ihr =>
    rw [format_fiber_children, format_depth_pos_nil c opts h d hd, ihr, List.append_nil]

/-- Every fiber line is the indent followed by `- ` and a tail. -/
theorem fiber_line_shape (n : TreeNode) (d : Nat) :
    ∃ rest : Str, fiber_line n d = indent_of d ++ '-' :: ' ' :: rest := by
  rcases n with ⟨name, ic, props, rf, ro, an, tg, ha, ch⟩
  rw [fiber_line.eq_def]
  have hd : lit "- " = '-' :: [' '] := rfl
  cases ic <;> cases an <;> cases rf <;> cases ha <;>
    exact ⟨_, by simp [hd, List.append_assoc]; rfl⟩

theorem fiber_line_head (n : TreeNode) (d : Nat) :
    fiber_line n d ≠ []
      ∧ ((fiber_line n d).headI = ' ' ∨ (fiber_line n d).headI = '-') := by
  rcases fiber_line_shape n d with ⟨rest, hr⟩
  rw [hr]
  cases d with
  | zero =>
    constructor
    · simp [indent_of]
    · right; simp [indent_of]
  | succ k =>
    have hi : indent_of (k + 1) = ' ' :: (' ' :: indent_of k) := by
      have h2 : 2 * (k + 1) = (2 * k + 1) + 1 := by omega
      rw [indent_of, h2, List.replicate_succ, List.replicate_succ]
      rfl
    constructor
    · simp [hi]
    · left; simp [hi]

/-- Every line produced by the fiber rendering loop is a `fiber_line`. -/
theorem fiber_tree_lines_shape (tree : List TreeNode) (opts : SnapshotOptions)
    (l : Str) (hl : l ∈ fiber_tree_lines tree opts) :
    ∃ n d, l = fiber_line n d := by
  rw [fiber_tree_lines] at hl
  rcases List.mem_flatMap.mp hl with ⟨node, _, hmem⟩
  by_cases hf : opts.filter.isSome = true
  · rw [if_pos hf, collect_filtered_eq_flat] at hmem
    rcases List.mem_flatMap.mp hmem with ⟨root, _, hmem2⟩
    rw [format_fiber_eq_map] at hmem2
    rcases List.mem_map.mp hmem2 with ⟨p, _, hp⟩
    exact ⟨p.1, p.2, hp.symm⟩
  · rw [if_neg hf, format_fiber_eq_map] at hmem
    rcases List.mem_map.mp hmem with ⟨p, _, hp⟩
    exact ⟨p.1, p.2, hp.symm⟩

/-! ### Lemmas about the AX formatter -/

theorem ax_node_list_mem (ls : List AXNode) (d : Nat) (o : SnapshotOptions)
    (l : Str) (hl : l ∈ format_ax_node_list ls d o) :
    ∃ c ∈ ls, l ∈ format_ax_node c d o := by
  induction ls with
  | nil => rw [format_ax_node_list] at hl; exact absurd hl (by simp)
  | cons c rest ihr =>
    rw [format_ax_node_list] at hl
    rcases List.mem_append.mp hl with h | h
    · exact ⟨c, by simp, h⟩
    · rcases ihr h with ⟨c', hc', h'⟩
      exact ⟨c', by simp [hc'], h'⟩

theorem ax_children_mem (cs : Option (List AXNode)) (d : Nat) (o : SnapshotOptions)
    (l : Str) (hl : l ∈ format_ax_children cs d o) :
    ∃ ls, cs = some ls ∧ ∃ c ∈ ls, l ∈ format_ax_node c d o := by
  cases cs with
  | none => rw [format_ax_children] at hl; exact absurd hl (by simp)
  | some ls =>
    rw [format_ax_children] at hl
    exact ⟨ls, rfl, ax_node_list_mem ls d o l hl⟩

theorem ax_strings_ok_list_mem (ls : List AXNode) (h : ax_strings_ok_list ls = true) :
    ∀ c ∈ ls, ax_strings_ok c = true := by
  induction ls with
  | nil => intro c hc; exact absurd hc (by simp)
  | cons a rest ihr =>
    rw [ax_strings_ok_list, Bool.and_eq_true] at h
    intro c hc
    rcases List.mem_cons.mp hc with rfl | hc'
    · exact h.1
    · exact ihr h.2 c hc'

theorem indent_no_newline (d : Nat) : '\n' ∉ indent_of d := by
  intro h
  have := List.eq_of_mem_replicate h
  exact absurd this (by decide)

/-- Under `ax_strings_ok`, no emitted AX line ends in a space and no emitted
AX line contains a newline. -/
theorem ax_format_lines_ok (n : AXNode) :
    ∀ (d : Nat) (opts : SnapshotOptions) (l : Str), ax_strings_ok n = true →
      l ∈ format_ax_node n d opts →
        l.getLast? ≠ some ' ' ∧ '\n' ∉ l := by
  induction n using ax_node_ind with
  | step id role name cs cids ih =>
    intro d opts l hok hl
    rw [ax_strings_ok] at hok
    simp only [Bool.and_eq_true] at hok
    obtain ⟨⟨⟨⟨hrne, hrlast⟩, hrnl⟩, hnnl⟩, hch⟩ := hok
    have hchild : ∀ d' l', l' ∈ format_ax_children cs d' opts →
        l'.getLast? ≠ some ' ' ∧ '\n' ∉ l' := by
      intro d' l' hl'
      rcases ax_children_mem cs d' opts l' hl' with ⟨ls, hls, c, hc, hlc⟩
      have hokc : ax_strings_ok c = true := by
        rw [hls] at hch
        rw [ax_strings_ok_children] at hch
        exact ax_strings_ok_list_mem ls hch c hc
      exact ih ls hls c hc d' opts l' hokc hlc
    rw [format_ax_node] at hl
    by_cases h0 : depth_cut opts d = true
    · rw [if_pos h0] at hl
      exact absurd hl (by simp)
    · rw [if_neg h0] at hl
      set role_s := (ax_value_str role).getD [] with hrs
      set name_s := (ax_value_str name).getD [] with hns
      by_cases h1 : (role_s == lit "none" || role_s == lit "Ignored"
          || role_s == lit "generic") = true
      · rw [if_pos h1] at hl
        exact hchild d l hl
      · rw [if_neg h1] at hl
        by_cases h2 : (opts.interactive && !(INTERACTIVE_ROLES.contains role_s)) = true
        · rw [if_pos h2] at hl
          exact hchild d l hl
        · rw [if_neg h2] at hl
          by_cases h3 : (opts.compact && name_s.isEmpty
              && !(INTERACTIVE_ROLES.contains role_s)) = true
          · rw [if_pos h3] at hl
            exact hchild d l hl
          · rw [if_neg h3] at hl
            rcases List.mem_cons.mp hl with rfl | hl'
            · have hrne' : role_s ≠ [] := by
                intro he
                rw [he] at hrne
                exact absurd hrne (by decide)
              have hrlast' : role_s.getLast? ≠ some ' ' := by
                simpa using hrlast
              have hrnl' : '\n' ∉ role_s := by
                intro hmem
                have hc : role_s.contains '\n' = true := by
                  simpa [List.contains] using List.elem_eq_true_of_mem hmem
                rw [hc] at hrnl
                exact Bool.noConfusion hrnl
              have hnnl' : '\n' ∉ name_s := by
                intro hmem
                have hc : name_s.contains '\n' = true := by
                  simpa [List.contains] using List.elem_eq_true_of_mem hmem
                rw [hc] at hnnl
                exact Bool.noConfusion hnnl
              by_cases hne : name_s.isEmpty = true
              · rw [if_pos hne]
                constructor
                · rw [List.getLast?_append_of_ne_nil _ hrne']
                  exact hrlast'
                · intro hmem
                  rcases List.mem_append.mp hmem with hm | hm
                  · rcases List.mem_append.mp hm with hm' | hm'
                    · exact indent_no_newline d hm'
                    · exact absurd hm' (by decide)
                  · exact hrnl' hm
              · rw [if_neg hne]
                have hdash : lit "- " = ['-', ' '] := rfl
                constructor
                · intro hlast
                  rw [← List.head?_reverse] at hlast
                  simp [List.reverse_append] at hlast
                · intro hmem
                  simp only [hdash, List.append_assoc, List.cons_append,
                    List.mem_append, List.mem_cons, List.not_mem_nil, or_false,
                    false_or] at hmem
                  rcases hmem with hm | hm | hm | hm | hm | hm | hm | hm
                  · exact indent_no_newline d hm
                  · exact absurd hm (by decide)
                  · exact absurd hm (by decide)
                  · exact hrnl' hm
                  · exact absurd hm (by decide)
                  · exact absurd hm (by decide)
                  · exact hnnl' hm
                  · exact absurd hm (by decide)
            · exact hchild (d + 1) l hl'

theorem ax_list_congr (l1 : List AXNode)
    (ih : ∀ c ∈ l1, ∀ n2, ax_eq_mod c n2 →
      ∀ (d : Nat) (opts : SnapshotOptions),
        format_ax_node c d opts = format_ax_node n2 d opts) :
    ∀ l2, ax_eq_mod_list l1 l2 →
      ∀ (d : Nat) (opts : SnapshotOptions),
        format_ax_node_list l1 d opts = format_ax_node_list l2 d opts := by
  induction l1 with
  | nil =>
    intro l2 h
    cases l2 with
    | nil => intro d opts; rfl
    | cons b rest2 => simp [ax_eq_mod_list] at h
  | cons a rest ihr =>
    intro l2 h
    cases l2 with
    | nil => simp [ax_eq_mod_list] at h
    | cons b rest2 =>
      rw [ax_eq_mod_list] at h
      intro d opts
      rw [format_ax_node_list, format_ax_node_list,
        ih a (by simp) b h.1 d opts,
        ihr (fun c hc => ih c (by simp [hc])) rest2 h.2 d opts]

/-- Rendering an AX node never looks at `child_ids`: nodes identical except
for `child_ids` format identically. -/
theorem ax_format_congr (n1 : AXNode) :
    ∀ n2, ax_eq_mod n1 n2 →
      ∀ (d : Nat) (opts : SnapshotOptions),
        format_ax_node n1 d opts = format_ax_node n2 d opts := by
  induction n1 using ax_node_ind with
  | step id1 role1 name1 ch1 cids1 ih =>
    intro n2 heq d opts
    rcases n2 with ⟨id2, role2, name2, ch2, cids2⟩
    rw [ax_eq_mod] at heq
    obtain ⟨hid, hrole, hname, hch⟩ := heq
    subst hid
    subst hrole
    subst hname
    have hc : ∀ d', format_ax_children ch1 d' opts = format_ax_children ch2 d' opts := by
      intro d'
      cases ch1 with
      | none =>
        cases ch2 with
        | none => rfl
        | some l2 => simp [ax_eq_mod_children] at hch
      | some l1 =>
        cases ch2 with
        | none => simp [ax_eq_mod_children] at hch
        | some l2 =>
          rw [ax_eq_mod_children] at hch
          rw [format_ax_children, format_ax_children]
          exact ax_list_congr l1 (fun c hc => ih l1 rfl c hc) l2 hch d' opts
    rw [format_ax_node, format_ax_node]
    simp only [hc]

/-! ### Claim theorems -/

/-- C1, counterexample: the claim says the roots of the reconstructed tree
are exactly the unreferenced nodes in input order (`ax_claim_roots`), but on
two unreferenced input nodes `build_ax_tree` returns only the first. -/
theorem claim_C1_counterexample :
    (build_ax_tree c1_nodes).map AXNode.node_id
      ≠ (ax_claim_roots c1_nodes).map AXNode.node_id
    ∧ (ax_claim_roots c1_nodes).map AXNode.node_id = [lit "1", lit "2"]
    ∧ (build_ax_tree c1_nodes).map AXNode.node_id = [lit "1"] := by
  decide

/-- C1, amended: `build_ax_tree` performs no reconstruction at all — for
every input sequence it returns at most the first input node as the sole
root, never consulting `child_ids` or the referenced-id analysis. -/
theorem claim_C1_amended (nodes : List AXNode) : build_ax_tree nodes = nodes.take 1 := by
  cases nodes <;> rfl

/-- C2: the spec-modelled dispatcher selects the snapshot source by the
precedence mini over full over react over AX. -/
theorem claim_C2_mode_precedence (o : FullSnapshotOptions) :
    (select_mode o = .mini ↔ o.mini = true)
    ∧ (select_mode o = .full ↔ (o.mini = false ∧ o.full = true))
    ∧ (select_mode o = .react ↔ (o.mini = false ∧ o.full = false ∧ o.react = true))
    ∧ (select_mode o = .ax ↔ (o.mini = false ∧ o.full = false ∧ o.react = false)) := by
  rcases o with ⟨i, c, r, f, m, md, fl⟩
  cases m <;> cases f <;> cases r <;> simp [select_mode]

/-- C4, counterexample: with filter `Card` on a `Card` root whose child is
another matching `Card`, the nested match is rendered only as an interior
line of the outer subtree — the output has a single top-level subtree, so a
match nested inside an already-emitted match is *not* re-emitted as its own
root, contrary to the claim. -/
theorem claim_C4_counterexample :
    collect_filtered_subtrees c4_tree c4_opts = [lit "- Card", lit "  - Card"]
    ∧ name_matches_filter (lit "Card") (lit "Card") = true
    ∧ (filtered_roots c4_tree c4_opts).length = 1
    ∧ (collect_filtered_subtrees c4_tree c4_opts).count (lit "- Card") = 1 := by
  decide

/-- C4, amended: when a filter is set, the emitted top-level subtrees are
exactly the *outermost* matching nodes in discovery order, each rendered at
depth 0 with the filter cleared; traversal does not descend into a matched
subtree, so nested matches are not re-emitted. -/
theorem claim_C4_amended (t : TreeNode) (opts : SnapshotOptions) :
    collect_filtered_subtrees t opts
      = (filtered_roots t opts).flatMap
          (fun n => format_fiber_node n 0 { opts with filter := none })
    ∧ ∀ n ∈ filtered_roots t opts,
        name_matches_filter n.name (opts.filter.getD []) = true :=
  ⟨collect_filtered_eq_flat t opts, fun n hn => filtered_roots_match t opts n hn⟩

/-- C4 witness: the amended identity evaluated on the nested-match input. -/
theorem claim_C4_witness :
    collect_filtered_subtrees c4_tree c4_opts
      = (filtered_roots c4_tree c4_opts).flatMap
          (fun n => format_fiber_node n 0 { c4_opts with filter := none })
    ∧ name_matches_filter c4_tree.name (c4_opts.filter.getD []) = true := by
  refine ⟨(claim_C4_amended c4_tree c4_opts).1, ?_⟩
  refine (claim_C4_amended c4_tree c4_opts).2 c4_tree ?_
  rw [show filtered_roots c4_tree c4_opts = [c4_tree] from rfl]
  exact List.mem_singleton.mpr rfl

/-- C5, counterexample: with `max_depth = 0` and `interactive` set, the
interactive filter promotes the children of a skipped host root to depth 0,
so a single root yields two lines — more than one line per root. -/
theorem claim_C5_counterexample :
    c5_opts.max_depth = some 0
    ∧ (fiber_tree_lines [c5_tree] c5_opts).length = 2
    ∧ ¬(fiber_tree_lines [c5_tree] c5_opts).length ≤ [c5_tree].length := by
  decide

/-- C5, amended: with `max_depth = 0`, no filter and `interactive` unset,
the fiber rendering emits at most one line per root; with `interactive` set
(or a filter present) promotion can produce several depth-0 lines. -/
theorem claim_C5_amended (tree : List TreeNode) (opts : SnapshotOptions)
    (hd : opts.max_depth = some 0) (hf : opts.filter = none)
    (hi : opts.interactive = false) :
    (fiber_tree_lines tree opts).length ≤ tree.length := by
  have hone : ∀ t : TreeNode, (format_fiber_node t 0 opts).length ≤ 1 := by
    intro t
    rcases t with ⟨name, ic, props, rf, ro, an, tg, ha, ch⟩
    rw [format_fiber_node]
    by_cases h1 : depth_cut opts 0 = true
    · rw [if_pos h1]; simp
    · rw [if_neg h1]
      by_cases h2 : (opts.interactive && !ic
          && !(INTERACTIVE_TAGS.contains (tg.getD []))) = true
      · rw [hi] at h2; simp at h2
      · rw [if_neg h2]
        by_cases h3 : (opts.compact && ic
            && !(has_interactive_descendant (.mk name ic props rf ro an tg ha ch))) = true
        · rw [if_pos h3]; simp
        · rw [if_neg h3]
          rw [format_children_depth_pos_nil ch opts hd 1 (by omega)]
          simp
  rw [fiber_tree_lines]
  induction tree with
  | nil => simp
  | cons t rest ih =>
    rw [List.flatMap_cons]
    rw [List.length_append]
    have hroot : (if opts.filter.isSome then collect_filtered_subtrees t opts
        else format_fiber_node t 0 opts).length ≤ 1 := by
      rw [hf]
      simpa using hone t
    simp only [List.length_cons]
    omega

/-- C5 witness: the amended bound evaluated on a concrete one-root tree. -/
theorem claim_C5_witness :
    ({ default_opts with max_depth := some 0 } : SnapshotOptions).max_depth = some 0
    ∧ (fiber_tree_lines [tn_component (lit "App") [tn_component (lit "X") []]]
        { default_opts with max_depth := some 0 }).length ≤ 1 :=
  ⟨rfl, by
    simpa using claim_C5_amended
      [tn_component (lit "App") [tn_component (lit "X") []]]
      { default_opts with max_depth := some 0 } rfl rfl rfl⟩

/-- C3: with `react` set, a fiber transport error propagates; a fiber probe
result that fails to parse, or parses with `found == false`, makes
`take_snapshot` return exactly the AX path's result with `react` cleared;
a parsed result with `found == true` is rendered — no other recovery. -/
theorem claim_C3_fiber_fallback (tr : Transport) (opts : SnapshotOptions)
    (hreact : opts.react = true) :
    (∀ e, tr.eval_response = .error e →
      take_snapshot tr opts = .error (.transport e))
    ∧ (∀ v, tr.eval_response = .ok v → parse_fiber_result v = none →
      take_snapshot tr opts = take_aria_snapshot tr { opts with react := false })
    ∧ (∀ v fiber, tr.eval_response = .ok v → parse_fiber_result v = some fiber →
      fiber.found = false →
      take_snapshot tr opts = take_aria_snapshot tr { opts with react := false })
    ∧ (∀ v fiber, tr.eval_response = .ok v → parse_fiber_result v = some fiber →
      fiber.found = true →
      take_snapshot tr opts = .ok (render_fiber_result fiber opts)) := by
  refine ⟨?_, ?_, ?_, ?_⟩
  · intro e he
    simp [take_snapshot, hreact, take_react_snapshot, he]
  · intro v hv hp
    simp [take_snapshot, hreact, take_react_snapshot, hv, hp]
  · intro v fiber hv hp hf
    simp [take_snapshot, hreact, take_react_snapshot, hv, hp, hf]
  · intro v fiber hv hp hf
    simp [take_snapshot, hreact, take_react_snapshot, hv, hp, hf]

/-- C3 witness: a probe result that is a JSON string does not parse as the
fiber schema, so the dispatcher falls back to the AX path, which renders the
empty `nodes` array as the empty-page sentinel. -/
theorem claim_C3_witness :
    c3_opts.react = true
    ∧ c3_transport.eval_response = .ok (Json.jstr (lit "x"))
    ∧ parse_fiber_result (Json.jstr (lit "x")) = none
    ∧ take_snapshot c3_transport c3_opts
        = take_aria_snapshot c3_transport { c3_opts with react := false }
    ∧ take_aria_snapshot c3_transport { c3_opts with react := false }
        = .ok (lit "(empty page)") := by
  refine ⟨rfl, rfl, rfl, ?_, ?_⟩
  · exact (claim_C3_fiber_fallback c3_transport c3_opts rfl).2.1
      (Json.jstr (lit "x")) rfl rfl
  · simp [take_aria_snapshot, c3_transport, j_lookup, parse_ax_node_items, aria_render]

/-- C6: glob-filter soundness — when the filter is `*P` (star-free `P`)
every emitted root's name ends with `P` case-insensitively, and when it is
`P*` every emitted root's name starts with `P` case-insensitively. -/
theorem claim_C6_glob_filter_sound (t : TreeNode) (opts : SnapshotOptions) (P : Str)
    (hP : P.contains '*' = false) :
    (opts.filter = some ('*' :: P) →
      ∀ n ∈ filtered_roots t opts,
        str_ends_with (str_lower n.name) (str_lower P) = true)
    ∧ (opts.filter = some (P ++ ['*']) →
      ∀ n ∈ filtered_roots t opts,
        str_starts_with (str_lower n.name) (str_lower P) = true) := by
  constructor
  · intro hf n hn
    have hm := filtered_roots_match t opts n hn
    rw [hf] at hm
    simp only [Option.getD_some] at hm
    have hcontains : (('*' :: P).contains '*') = true := by simp
    simp only [name_matches_filter, hcontains, if_true] at hm
    rw [str_lower_cons_star] at hm
    exact glob_suffix_sound (str_lower P) (str_lower n.name)
      (str_lower_star_free P hP) hm
  · intro hf n hn
    have hm := filtered_roots_match t opts n hn
    rw [hf] at hm
    simp only [Option.getD_some] at hm
    have hcontains : ((P ++ ['*']).contains '*') = true := by simp
    simp only [name_matches_filter, hcontains, if_true] at hm
    rw [str_lower_append_star] at hm
    exact glob_starts_sound (str_lower P) (str_lower n.name)
      (str_lower_star_free P hP) hm

/-- C6 witness: with filter `*Card`, the emitted root `ComicCard` ends with
`card` after lowering. -/
theorem claim_C6_witness :
    c6_opts.filter = some ('*' :: lit "Card")
    ∧ (lit "Card").contains '*' = false
    ∧ str_ends_with (str_lower c6_root.name) (str_lower (lit "Card")) = true := by
  have hmem : c6_root ∈ filtered_roots c6_tree c6_opts := by
    rw [show filtered_roots c6_tree c6_opts = [c6_root] from rfl]
    exact List.mem_singleton.mpr rfl
  exact ⟨rfl, by decide,
    (claim_C6_glob_filter_sound c6_tree c6_opts (lit "Card") (by decide)).1 rfl c6_root hmem⟩

/-- C7: under `interactive`, the fiber formatter's lines are exactly the
lines of the emitted `(node, depth)` pairs, and every emitted host pair
(`is_component = false`) carries a tag in `INTERACTIVE_TAGS`. -/
theorem claim_C7_interactive_hosts (t : TreeNode) (depth : Nat) (opts : SnapshotOptions)
    (hint : opts.interactive = true) :
    format_fiber_node t depth opts
      = (fiber_emit t depth opts).map (fun p => fiber_line p.1 p.2)
    ∧ ∀ p ∈ fiber_emit t depth opts, p.1.is_component = false →
        ∃ tg, p.1.tag = some tg ∧ tg ∈ INTERACTIVE_TAGS := by
  refine ⟨format_fiber_eq_map t depth opts, ?_⟩
  intro p hp hcomp
  have h := fiber_emit_interactive t depth opts hint p hp hcomp
  cases htag : p.1.tag with
  | none =>
    rw [htag] at h
    exact absurd h (by decide)
  | some tg =>
    rw [htag] at h
    exact ⟨tg, rfl, List.elem_iff.mp (by simpa using h)⟩

/-- C7 witness: in a concrete interactive snapshot the emitted host pair is
the `button`, whose tag is interactive. -/
theorem claim_C7_witness :
    c7_opts.interactive = true
    ∧ ∃ tg, (tn_host (lit "button") (some (lit "OK")) (some (lit "e1")) []).tag = some tg
        ∧ tg ∈ INTERACTIVE_TAGS := by
  refine ⟨rfl, ?_⟩
  have hp : ((tn_host (lit "button") (some (lit "OK")) (some (lit "e1")) [], 1) : TreeNode × Nat)
      ∈ fiber_emit c7_tree 0 c7_opts := by
    rw [show fiber_emit c7_tree 0 c7_opts
        = [(c7_tree, 0), (tn_host (lit "button") (some (lit "OK")) (some (lit "e1")) [], 1)]
      from rfl]
    exact List.mem_cons_of_mem _ (List.mem_singleton.mpr rfl)
  exact (claim_C7_interactive_hosts c7_tree 0 c7_opts rfl).2 _ hp rfl

/-- C8, counterexample: an AX node whose `role` and `name` are both absent
renders as the line `- ` — which ends with a trailing space, contradicting
the no-trailing-space clause for exactly the absent/non-string inputs the
claim covers. -/
theorem claim_C8_counterexample :
    aria_lines [c8_node] default_opts = [lit "- "]
    ∧ has_trailing_space (lit "- ") = true
    ∧ aria_render [c8_node] default_opts = lit "- " := by
  decide

/-- C8, amended: provided every node's rendered role is nonempty, does not
itself end in a space, and role/name contain no newline, no emitted AX line
ends with a trailing space; and the output is the emitted lines joined by a
single newline — splitting it on `\n` recovers exactly the lines, so there
is no trailing newline. -/
theorem claim_C8_amended (nodes : List AXNode) (opts : SnapshotOptions)
    (hok : ax_strings_ok_list nodes = true) :
    (∀ l ∈ aria_lines nodes opts, has_trailing_space l = false)
    ∧ (aria_lines nodes opts ≠ [] →
        aria_render nodes opts = join_lines (aria_lines nodes opts)
        ∧ split_on_char '\n' (aria_render nodes opts) = aria_lines nodes opts) := by
  have hfacts : ∀ l ∈ aria_lines nodes opts, l.getLast? ≠ some ' ' ∧ '\n' ∉ l := by
    intro l hl
    cases nodes with
    | nil =>
      rw [aria_lines] at hl
      exact absurd hl (by simp [build_ax_tree])
    | cons n rest =>
      rw [aria_lines, build_ax_tree] at hl
      simp only [List.flatMap_cons, List.flatMap_nil, List.append_nil] at hl
      have hokn : ax_strings_ok n = true := by
        rw [ax_strings_ok_list, Bool.and_eq_true] at hok
        exact hok.1
      exact ax_format_lines_ok n 0 opts l hokn hl
  constructor
  · intro l hl
    have hlast := (hfacts l hl).1
    simpa [has_trailing_space] using hlast
  · intro hne
    have hrender : aria_render nodes opts = join_lines (aria_lines nodes opts) := by
      cases nodes with
      | nil => exact absurd (show aria_lines [] opts = [] from rfl) hne
      | cons n rest =>
        rw [aria_render, if_neg (by simp)]
        rw [if_neg (by simpa [List.isEmpty_iff] using hne)]
    refine ⟨hrender, ?_⟩
    rw [hrender]
    refine split_join _ hne ?_
    intro l hl
    cases hcontains : l.contains '\n' with
    | false => rfl
    | true => exact absurd (List.elem_iff.mp hcontains) (hfacts l hl).2

/-- C8 witness: on ordinary role/name strings no line has a trailing space
and splitting the output on newlines recovers the emitted lines. -/
theorem claim_C8_witness :
    ax_strings_ok_list c8_ok_nodes = true
    ∧ (∀ l ∈ aria_lines c8_ok_nodes default_opts, has_trailing_space l = false)
    ∧ split_on_char '\n' (aria_render c8_ok_nodes default_opts)
        = aria_lines c8_ok_nodes default_opts := by
  have h := claim_C8_amended c8_ok_nodes default_opts (by decide)
  exact ⟨by decide, h.1, (h.2 (by decide)).2⟩

/-- C9: sequences of parsed AX nodes identical except for the contents of
their `child_ids` fields render identically on the AX path, and only the
first input node is taken as the rendered root. -/
theorem claim_C9_child_ids_ignored (ns1 ns2 : List AXNode) (opts : SnapshotOptions)
    (h : ax_eq_mod_list ns1 ns2) :
    aria_render ns1 opts = aria_render ns2 opts
    ∧ build_ax_tree ns1 = ns1.take 1 := by
  constructor
  · cases ns1 with
    | nil =>
      cases ns2 with
      | nil => rfl
      | cons b r2 => simp [ax_eq_mod_list] at h
    | cons a r1 =>
      cases ns2 with
      | nil => simp [ax_eq_mod_list] at h
      | cons b r2 =>
        rw [ax_eq_mod_list] at h
        have hfmt : format_ax_node a 0 opts = format_ax_node b 0 opts :=
          ax_format_congr a b h.1 0 opts
        simp [aria_render, aria_lines, build_ax_tree, hfmt]
  · cases ns1 <;> rfl

/-- C9 witness: a concrete pair differing only in `child_ids` (at both
nesting levels) renders identically. -/
theorem claim_C9_witness :
    (c9_left.map AXNode.child_ids ≠ c9_right.map AXNode.child_ids)
    ∧ ax_eq_mod_list c9_left c9_right
    ∧ aria_render c9_left default_opts = aria_render c9_right default_opts := by
  have hrel : ax_eq_mod_list c9_left c9_right := by
    simp [c9_left, c9_right, ax_eq_mod_list, ax_eq_mod, ax_eq_mod_children]
  exact ⟨by decide, hrel,
    (claim_C9_child_ids_ignored c9_left c9_right default_opts hrel).1⟩

/-- C10: in the fiber rendering, when `all_minified` holds and the tree
renders no node lines, the output is exactly the minified warning line; the
`(empty)` sentinel is produced exactly when `all_minified` is false and no
lines are produced. -/
theorem claim_C10_minified_warning (fiber : FiberResult) (opts : SnapshotOptions) :
    (fiber.all_minified = true → fiber_tree_lines fiber.tree opts = [] →
      render_fiber_result fiber opts = MINIFIED_WARNING)
    ∧ (render_fiber_result fiber opts = lit "(empty)" →
      fiber.all_minified = false ∧ fiber_tree_lines fiber.tree opts = []) := by
  constructor
  · intro hm hl
    rw [render_fiber_result, hm, hl]
    simp [join_lines]
  · intro hout
    cases hm : fiber.all_minified with
    | true =>
      exfalso
      rw [render_fiber_result, hm] at hout
      simp only [if_true, List.singleton_append] at hout
      rw [if_neg (by simp)] at hout
      have hhead : (join_lines
          (MINIFIED_WARNING :: fiber_tree_lines fiber.tree opts)).headI = '#' :=
        join_lines_single_head _ _ '#' (by decide) (by decide)
      rw [hout] at hhead
      exact absurd hhead (by decide)
    | false =>
      rw [render_fiber_result, hm] at hout
      simp only [Bool.false_eq_true, if_false, List.nil_append] at hout
      cases hl : fiber_tree_lines fiber.tree opts with
      | nil => exact ⟨rfl, rfl⟩
      | cons l rest =>
        exfalso
        rw [hl] at hout
        rw [if_neg (by simp)] at hout
        rcases fiber_tree_lines_shape fiber.tree opts l
            (by rw [hl]; exact List.mem_cons_self l rest) with ⟨n, d, hlnd⟩
        have hh := fiber_line_head n d
        have hhead : (join_lines (l :: rest)).headI = '(' := by
          rw [hout]; decide
        rcases hh.2 with hsp | hda
        · have := join_lines_single_head l rest ' ' (by rw [hlnd]; exact hsp)
            (by rw [hlnd]; exact hh.1)
          rw [hhead] at this
          exact absurd this (by decide)
        · have := join_lines_single_head l rest '-' (by rw [hlnd]; exact hda)
            (by rw [hlnd]; exact hh.1)
          rw [hhead] at this
          exact absurd this (by decide)

/-- C10 witness: a minified fiber result whose only node is removed by an
unmatched filter renders as exactly the warning line. -/
theorem claim_C10_witness :
    c10_fiber.all_minified = true
    ∧ fiber_tree_lines c10_fiber.tree c10_opts = []
    ∧ render_fiber_result c10_fiber c10_opts = MINIFIED_WARNING := by
  refine ⟨rfl, by decide, ?_⟩
  exact (claim_C10_minified_warning c10_fiber c10_opts).1 rfl (by decide)

/-! Concrete evaluations of the embedding, matching the unit tests of
src/snapshot.rs and the spec scenarios. -/

example :
    format_fiber_node
      (tn_component (lit "App")
        [tn_component (lit "NavBar")
          [tn_host (lit "button") (some (lit "Click me")) (some (lit "e1")) []]])
      0 default_opts
    = [lit "- App", lit "  - NavBar", lit "    - button \"Click me\" [ref=e1]"] := by
  decide

example :
    format_fiber_node
      (tn_component (lit "App")
        [tn_host (lit "div") none none
          [tn_host (lit "button") (some (lit "OK")) (some (lit "e1")) []],
         tn_host (lit "a") (some (lit "Home")) (some (lit "e2")) []])
      0 { default_opts with interactive := true }
    = [lit "- App", lit "  - button \"OK\" [ref=e1]", lit "  - a \"Home\" [ref=e2]"] := by
  decide

example :
    collect_filtered_subtrees
      (tn_component (lit "App")
        [tn_component (lit "ComicCard")
          [tn_host (lit "a") (some (lit "Comic 1")) (some (lit "e1")) []],
         tn_component (lit "NavBar")
          [tn_host (lit "button") (some (lit "Menu")) (some (lit "e2")) []],
         tn_component (lit "ComicList")
          [tn_component (lit "ComicCard")
            [tn_host (lit "a") (some (lit "Comic 2")) (some (lit "e3")) []]]])
      { default_opts with filter := some (lit "ComicCard") }
    = [lit "- ComicCard", lit "  - a \"Comic 1\" [ref=e1]",
       lit "- ComicCard", lit "  - a \"Comic 2\" [ref=e3]"] := by
  decide

example : glob_match (lit "comic*") (lit "comiccard") = true := by decide

example : glob_match (lit "*card") (lit "comiccard") = true := by decide

example : glob_match (lit "*mic*") (lit "comiccard") = true := by decide

example : glob_match (lit "comic*card") (lit "comiccard") = true := by decide

example : glob_match (lit "comic*") (lit "navbarcomic") = false := by decide

example : glob_match (lit "*card") (lit "cardnav") = false := by decide

example : name_matches_filter (lit "NavBar") (lit "navbar") = true := by decide

example :
    aria_render
      [AXNode.mk (lit "1") (ax_string_value "WebArea") (ax_string_value "Example")
        (some [AXNode.mk (lit "2") (ax_string_value "button") (ax_string_value "OK") none []])
        [lit "2"]]
      default_opts
    = lit "- WebArea \"Example\"\n  - button \"OK\"" := by decide

example :
    aria_render [AXNode.mk (lit "1") none none none []] default_opts = lit "- " := by
  decide

example : lit "ab" = ['a', 'b'] := by decide

example : str_lower (lit "AbC*") = lit "abc*" := by decide

example : find_sub (lit "xcard") (lit "card") = some 1 := by decide

example : split_on_char '*' (lit "a*b") = [lit "a", lit "b"] := by decide

example : split_on_char '*' (lit "*b") = [[], lit "b"] := by decide

example : join_lines [lit "a", lit "b"] = ['a', '\n', 'b'] := by decide

example : str_ends_with (lit "comiccard") (lit "card") = true := by decide
